import Mathlib

/-!
# bshell — verification of the command-execution core

Shallow embedding of the interactive shell in `src/main.c`:
the tokenizer (`inputToCommand`), the redirection extractor
(`setup_redirects`), the child-side redirection application and exec
(`apply_redirects` / the fork child path of `main`), the builtin
dispatcher (`cd`, `exit`), and the SIGINT handler (`sigint_handler`)
with its `jump_flag` arming protocol.

Strings are modelled as `List Char`; the null-terminated `char **`
argument vector is modelled as `List Tok`.  OS effects (chdir, open,
dup2, execvp, fork) are modelled by oracles supplied in environment
records; each oracle either succeeds or fails with an errno text,
mirroring the branches the C code takes on the corresponding return
values.
-/

namespace BShell

/-- A token: an owned C string, modelled as its character list. -/
abbrev Tok := List Char

/-! ## Tokenizer — `inputToCommand`, main.c lines 295–344

`strtok(input_copy, " ")` splits on runs of the literal space
character, skipping leading and trailing separators; each token is
`strdup`ed into the command array.  `inputToCommandAux cs cur` walks
the remaining characters `cs` with the current partial token `cur`
held in reverse. -/

def inputToCommandAux : List Char → List Char → List Tok
  | [], cur => if cur = [] then [] else [cur.reverse]
  | c :: cs, cur =>
    if c = ' ' then
      if cur = [] then inputToCommandAux cs []
      else cur.reverse :: inputToCommandAux cs []
    else inputToCommandAux cs (c :: cur)

/-- `inputToCommand` (main.c 295): tokenize a line on spaces. -/
def inputToCommand (input : List Char) : List Tok :=
  inputToCommandAux input []

/-- Join a token list with single spaces (the inverse direction of the
tokenizer, used to state the round-trip property). -/
def joinTokens : List Tok → List Char
  | [] => []
  | [t] => t
  | t :: ts => t ++ ' ' :: joinTokens ts

/-! ## Redirection extraction — `setup_redirects`, main.c lines 147–192 -/

/-- `output_mode` values `TRUNCATE` / `APPEND` (main.c 16–17). -/
inductive OutputMode
  | Truncate
  | Append
deriving DecidableEq

/-- `struct redirect_info` (main.c 20–25). -/
structure RedirectInfo where
  input_file : Option Tok
  output_file : Option Tok
  error_file : Option Tok
  output_mode : OutputMode
deriving DecidableEq

/-- The initialization of the struct at main.c 149–152. -/
def initRedir : RedirectInfo :=
  { input_file := none, output_file := none, error_file := none,
    output_mode := OutputMode.Truncate }

def ltTok : Tok := ['<']
def gtTok : Tok := ['>']
def ggTok : Tok := ['>', '>']
def e2Tok : Tok := ['2', '>']

/-- Whether a token is one of the four redirection operators. -/
def isOpTok (t : Tok) : Bool :=
  t = ltTok || t = gtTok || t = ggTok || t = e2Tok

/-- The scan loop of `setup_redirects` (main.c 157–188): an operator
with a following token records that token into the directive and skips
both; an operator at the end of the vector is dropped without
recording; any other token is kept (compacted via `write_idx`). -/
def setupRedirectsAux : List Tok → RedirectInfo → List Tok × RedirectInfo
  | [], r => ([], r)
  | t :: rest, r =>
    if t = ltTok then
      match rest with
      | [] => ([], r)
      | f :: rest2 =>
        setupRedirectsAux rest2 { r with input_file := some f }
    else if t = gtTok then
      match rest with
      | [] => ([], r)
      | f :: rest2 =>
        setupRedirectsAux rest2
          { r with output_file := some f, output_mode := OutputMode.Truncate }
    else if t = ggTok then
      match rest with
      | [] => ([], r)
      | f :: rest2 =>
        setupRedirectsAux rest2
          { r with output_file := some f, output_mode := OutputMode.Append }
    else if t = e2Tok then
      match rest with
      | [] => ([], r)
      | f :: rest2 =>
        setupRedirectsAux rest2 { r with error_file := some f }
    else
      let p := setupRedirectsAux rest r
      (t :: p.1, p.2)

/-- `setup_redirects` (main.c 147): initialize the directive, scan the
vector, return the compacted vector and the populated directive. -/
def setup_redirects (command : List Tok) : List Tok × RedirectInfo :=
  setupRedirectsAux command initRedir

/-- Which directive field a recorded operator occurrence targets. -/
inductive RField
  | inp
  | outT
  | outA
  | err
deriving DecidableEq

/-- The sequence of (field, operand) recording events the scan
performs, in scan order.  An operator with no following token produces
no event; the token after a recorded operator is consumed and is not
itself scanned. -/
def redirEvents : List Tok → List (RField × Tok)
  | [] => []
  | t :: rest =>
    if t = ltTok then
      match rest with
      | [] => []
      | f :: rest2 => (RField.inp, f) :: redirEvents rest2
    else if t = gtTok then
      match rest with
      | [] => []
      | f :: rest2 => (RField.outT, f) :: redirEvents rest2
    else if t = ggTok then
      match rest with
      | [] => []
      | f :: rest2 => (RField.outA, f) :: redirEvents rest2
    else if t = e2Tok then
      match rest with
      | [] => []
      | f :: rest2 => (RField.err, f) :: redirEvents rest2
    else redirEvents rest

/-- Effect of one recording event on the directive (the struct-field
assignments at main.c 161, 167–168, 174–175, 181). -/
def applyEvent (r : RedirectInfo) : RField × Tok → RedirectInfo
  | (RField.inp, f) => { r with input_file := some f }
  | (RField.outT, f) =>
    { r with output_file := some f, output_mode := OutputMode.Truncate }
  | (RField.outA, f) =>
    { r with output_file := some f, output_mode := OutputMode.Append }
  | (RField.err, f) => { r with error_file := some f }

/-- Events recording into the input field. -/
def isInpF : RField → Bool
  | RField.inp => true
  | _ => false

/-- Events recording into the output field (either mode). -/
def isOutF : RField → Bool
  | RField.outT => true
  | RField.outA => true
  | _ => false

/-- Events recording into the error field. -/
def isErrF : RField → Bool
  | RField.err => true
  | _ => false

/-- The operand of the last event satisfying `p`, starting from a
previously recorded value `a`: the "last occurrence wins" reading of
the event sequence. -/
def lastRecordedFrom (p : RField → Bool) (a : Option Tok)
    (evs : List (RField × Tok)) : Option Tok :=
  evs.foldl (fun acc e => if p e.1 then some e.2 else acc) a

/-- The operand of the last event satisfying `p`, if any. -/
def lastRecorded (p : RField → Bool) (evs : List (RField × Tok)) : Option Tok :=
  lastRecordedFrom p none evs

/-- The mode written by the last output event, starting from `m`. -/
def lastModeFrom (m : OutputMode) (evs : List (RField × Tok)) : OutputMode :=
  evs.foldl
    (fun acc e =>
      match e.1 with
      | RField.outT => OutputMode.Truncate
      | RField.outA => OutputMode.Append
      | _ => acc)
    m

/-- The mode of the last output event, defaulting to Truncate. -/
def lastMode (evs : List (RField × Tok)) : OutputMode :=
  lastModeFrom OutputMode.Truncate evs

/-! ## User-visible error messages

Each constructor mirrors one `fprintf(stderr, ...)` call in main.c and
carries the data interpolated into the format string (the offending
path or command, and the `strerror(errno)` text supplied by the
environment). -/

inductive Msg
  | cdMissingOperand
  | cdFail (path : Tok) (reason : List Char)
  | forkFail (reason : List Char)
  | openInputFail (path : Tok) (reason : List Char)
  | dupInputFail (path : Tok) (reason : List Char)
  | openOutputFail (path : Tok) (reason : List Char)
  | dupOutputFail (path : Tok) (reason : List Char)
  | openErrorFail (path : Tok) (reason : List Char)
  | dupErrorFail (path : Tok) (reason : List Char)
  | execFail (cmd : Tok) (reason : List Char)
deriving DecidableEq

/-! ## Child execution context — `apply_redirects` (main.c 204–261) and
the fork child path of `main` (main.c 121–127) -/

/-- OS oracles visible to the child: each call either succeeds or
fails with an errno text. -/
structure ChildEnv where
  openInput : Tok → Except (List Char) Unit
  openOutput : Tok → OutputMode → Except (List Char) Unit
  openError : Tok → Except (List Char) Unit
  dup2 : Nat → Except (List Char) Unit
  execvp : Tok → List Tok → Option (List Char)

/-- Input-redirection block of `apply_redirects` (main.c 208–222):
open read-only, then `dup2` onto stdin (fd 0); either failure prints a
message and `exit(1)`. -/
def redirectInput (env : ChildEnv) (r : RedirectInfo) : Except Msg Unit :=
  match r.input_file with
  | none => Except.ok ()
  | some f =>
    match env.openInput f with
    | Except.error e => Except.error (Msg.openInputFail f e)
    | Except.ok _ =>
      match env.dup2 0 with
      | Except.error e => Except.error (Msg.dupInputFail f e)
      | Except.ok _ => Except.ok ()

/-- Output-redirection block (main.c 225–243): open write-only with
the recorded mode (append or truncate, creating at 0644), then `dup2`
onto stdout (fd 1). -/
def redirectOutput (env : ChildEnv) (r : RedirectInfo) : Except Msg Unit :=
  match r.output_file with
  | none => Except.ok ()
  | some f =>
    match env.openOutput f r.output_mode with
    | Except.error e => Except.error (Msg.openOutputFail f e)
    | Except.ok _ =>
      match env.dup2 1 with
      | Except.error e => Except.error (Msg.dupOutputFail f e)
      | Except.ok _ => Except.ok ()

/-- Error-redirection block (main.c 246–260): open write-only
truncating, then `dup2` onto stderr (fd 2). -/
def redirectError (env : ChildEnv) (r : RedirectInfo) : Except Msg Unit :=
  match r.error_file with
  | none => Except.ok ()
  | some f =>
    match env.openError f with
    | Except.error e => Except.error (Msg.openErrorFail f e)
    | Except.ok _ =>
      match env.dup2 2 with
      | Except.error e => Except.error (Msg.dupErrorFail f e)
      | Except.ok _ => Except.ok ()

/-- `apply_redirects` (main.c 204): the three blocks in order; the
first failure aborts the child. -/
def apply_redirects (env : ChildEnv) (r : RedirectInfo) : Except Msg Unit :=
  match redirectInput env r with
  | Except.error m => Except.error m
  | Except.ok _ =>
    match redirectOutput env r with
    | Except.error m => Except.error m
    | Except.ok _ => redirectError env r

/-- Outcome of the child path: either the program image was replaced
(`execed`, with SIGINT reset to default first, main.c 124), or the
child terminated via `exit` with the given status and the messages it
printed. -/
inductive ChildResult
  | exited (code : Nat) (msgs : List Msg)
  | execed (argv : List Tok)
deriving DecidableEq

/-- The fork child path of `main` (main.c 121–127): apply redirects
(exit 1 on failure), reset SIGINT, `execvp`; if `execvp` returns, print
the not-found message and `exit(1)`. -/
def childRun (env : ChildEnv) (r : RedirectInfo) (argv : List Tok) (arg0 : Tok) :
    ChildResult :=
  match apply_redirects env r with
  | Except.error m => ChildResult.exited 1 [m]
  | Except.ok _ =>
    match env.execvp arg0 argv with
    | some e => ChildResult.exited 1 [Msg.execFail arg0 e]
    | none => ChildResult.execed argv

/-! ## One iteration of the shell loop — `main` (main.c 52–135) -/

/-- OS oracles visible to the parent shell.  `chdir` maps the current
directory and a path to the resulting directory, or fails with an
errno text; `fork` either succeeds or fails with an errno text. -/
structure ShellEnv where
  chdir : Tok → Tok → Except (List Char) Tok
  fork : Except (List Char) Unit
  child : ChildEnv

/-- How the iteration leaves the loop: `continueLoop` reaches the next
prompt, `breakLoop` is the `exit` builtin's break. -/
inductive IterAction
  | continueLoop
  | breakLoop
deriving DecidableEq

/-- Observable outcome of one loop iteration: the resulting working
directory, how the loop continues, the error messages printed by the
shell, and the launched child (argument vector, directive, and child
outcome) if one was forked.  `spawned = none` means no child process
was created, hence no redirection target was opened. -/
structure IterOut where
  cwd : Tok
  action : IterAction
  msgs : List Msg
  spawned : Option (List Tok × RedirectInfo × ChildResult)
deriving DecidableEq

/-- `cd` builtin (main.c 369–371): a direct call to `chdir`. -/
def cd (env : ShellEnv) (cwd path : Tok) : Except (List Char) Tok :=
  env.chdir cwd path

/-- The body of the `while(1)` loop (main.c 52–135) for one input
line: empty line → continue; tokenize; extract redirections; empty
vector → continue; `exit` → break; `cd` → dispatch with usage/error
reporting; otherwise fork and, in the child, apply redirects and exec
while the parent waits (the collected status is ignored). -/
def shellIter (env : ShellEnv) (cwd : Tok) (line : List Char) : IterOut :=
  if line = [] then
    { cwd := cwd, action := IterAction.continueLoop, msgs := [], spawned := none }
  else
    let command := inputToCommand line
    let p := setup_redirects command
    match p.1 with
    | [] =>
      { cwd := cwd, action := IterAction.continueLoop, msgs := [], spawned := none }
    | c0 :: args =>
      if c0 = ['e', 'x', 'i', 't'] then
        { cwd := cwd, action := IterAction.breakLoop, msgs := [], spawned := none }
      else if c0 = ['c', 'd'] then
        match args with
        | [] =>
          { cwd := cwd, action := IterAction.continueLoop,
            msgs := [Msg.cdMissingOperand], spawned := none }
        | path :: _ =>
          match cd env cwd path with
          | Except.error e =>
            { cwd := cwd, action := IterAction.continueLoop,
              msgs := [Msg.cdFail path e], spawned := none }
          | Except.ok cwd2 =>
            { cwd := cwd2, action := IterAction.continueLoop,
              msgs := [], spawned := none }
      else
        match env.fork with
        | Except.error e =>
          { cwd := cwd, action := IterAction.continueLoop,
            msgs := [Msg.forkFail e], spawned := none }
        | Except.ok _ =>
          { cwd := cwd, action := IterAction.continueLoop, msgs := [],
            spawned := some (c0 :: args, p.2,
              childRun env.child p.2 (c0 :: args) c0) }

/-- The whole shell run over a script of input lines: `main` returns 0
both on end-of-input (main.c 69–72) and on the `exit` builtin
(main.c 95–99, 137). -/
def shellRun (env : ShellEnv) : Tok → List (List Char) → Nat
  | _, [] => 0
  | cwd, l :: ls =>
    let out := shellIter env cwd l
    match out.action with
    | IterAction.breakLoop => 0
    | IterAction.continueLoop => shellRun env out.cwd ls

/-! ## Interrupt controller — `sigint_handler` (main.c 279–284) and the
`sigsetjmp`/`jump_flag` protocol of the loop (main.c 52–57) -/

/-- Program points of the loop at which a signal can arrive. -/
inductive PC
  | TopLoop
  | AtReadline
  | AtWait
  | Done
deriving DecidableEq

/-- Control state of the shell process: the program point, the
`jump_flag` arming flag (main.c 28, 57), whether a forked child is
currently outstanding, and the working directory. -/
structure LoopSt where
  pc : PC
  jump_flag : Bool
  childAlive : Bool
  cwd : Tok
deriving DecidableEq

/-- State at process start: before the first iteration `jump_flag`
is 0 (main.c 28) and no child exists. -/
def initSt (cwd0 : Tok) : LoopSt :=
  { pc := PC.TopLoop, jump_flag := false, childAlive := false, cwd := cwd0 }

/-- `sigint_handler` (main.c 279–284): if `jump_flag` is unset, return
(the interrupted call is restarted under SA_RESTART); otherwise
`siglongjmp` to the `sigsetjmp` at the loop top (main.c 54), which
prints a newline, re-arms, and blocks on `readline` again.  The
handler never signals or reaps the child. -/
def sigint_handler (s : LoopSt) : LoopSt :=
  if s.jump_flag then { s with pc := PC.AtReadline } else s

/-- Scheduler events driving the loop between signal arrivals. -/
inductive Event
  | arm
  | readLine (l : List Char)
  | readEof
  | childDone

/-- Control effect of running the loop body on one read line:
`exit` breaks out (pc `Done`), a launch leaves the parent blocked in
`waitpid` with the child outstanding (pc `AtWait`), everything else
continues to the next iteration (pc `TopLoop`). -/
def dispatchLine (env : ShellEnv) (s : LoopSt) (l : List Char) : LoopSt :=
  match shellIter env s.cwd l with
  | { cwd := cwd2, action := IterAction.breakLoop, msgs := _, spawned := _ } =>
    { s with pc := PC.Done, cwd := cwd2 }
  | { cwd := cwd2, action := IterAction.continueLoop, msgs := _, spawned := some _ } =>
    { s with pc := PC.AtWait, childAlive := true, cwd := cwd2 }
  | { cwd := cwd2, action := IterAction.continueLoop, msgs := _, spawned := none } =>
    { s with pc := PC.TopLoop, cwd := cwd2 }

/-- Normal (signal-free) execution steps of `main`'s loop: arming at
the top (main.c 54–57: `sigsetjmp` then `jump_flag = 1`, then block in
`readline`), dispatching a read line via the loop body, EOF breaking
the loop, and `waitpid` returning when the child terminates. -/
def loopStep (env : ShellEnv) (s : LoopSt) (e : Event) : LoopSt :=
  match s.pc, e with
  | PC.TopLoop, Event.arm => { s with pc := PC.AtReadline, jump_flag := true }
  | PC.AtReadline, Event.readEof => { s with pc := PC.Done }
  | PC.AtReadline, Event.readLine l => dispatchLine env s l
  | PC.AtWait, Event.childDone => { s with pc := PC.TopLoop, childAlive := false }
  | _, _ => s

/-- States reachable from process start by normal steps and signal
arrivals. -/
inductive Reach (env : ShellEnv) (cwd0 : Tok) : LoopSt → Prop
  | init : Reach env cwd0 (initSt cwd0)
  | step {s : LoopSt} (e : Event) : Reach env cwd0 s → Reach env cwd0 (loopStep env s e)
  | intr {s : LoopSt} : Reach env cwd0 s → Reach env cwd0 (sigint_handler s)

/-! ## Auxiliary notions used in the statements -/

/-- Token vectors built entirely from redirection operators and their
operands: a sequence of (operator, operand) pairs, possibly ending in
a bare trailing operator. -/
inductive AllRedirs : List Tok → Prop
  | nil : AllRedirs []
  | bare (op : Tok) : isOpTok op = true → AllRedirs [op]
  | pair (op f : Tok) (rest : List Tok) :
      isOpTok op = true → AllRedirs rest → AllRedirs (op :: f :: rest)

/-- A concrete errno text used in evaluation environments. -/
def enoent : List Char := ['E', 'N', 'O', 'E', 'N', 'T']

/-- Evaluation child environment in which every OS call succeeds. -/
def okChildEnv : ChildEnv :=
  { openInput := fun _ => Except.ok ()
    openOutput := fun _ _ => Except.ok ()
    openError := fun _ => Except.ok ()
    dup2 := fun _ => Except.ok ()
    execvp := fun _ _ => none }

/-- Evaluation shell environment in which every OS call succeeds and
`chdir` moves to the requested path. -/
def okEnv : ShellEnv :=
  { chdir := fun _ p => Except.ok p
    fork := Except.ok ()
    child := okChildEnv }

/-- Evaluation child environment whose input `open` fails. -/
def failOpenChildEnv : ChildEnv :=
  { okChildEnv with openInput := fun _ => Except.error enoent }

/-- Per-iteration token storage: `inputToCommand` `strdup`s one owned
string per token (main.c 330). -/
def tokensAllocated (line : List Char) : List Tok :=
  inputToCommand line

/-- Per-iteration token storage released: `freeCommand` (main.c
354–361) walks the vector up to its terminator, which after
`setup_redirects` compaction holds only the kept tokens; no other
`free` of token storage or of the directive's path fields occurs in
the loop body (main.c 89–90, 96–97, 109–110, 118–119, 133–134). -/
def tokensFreed (line : List Char) : List Tok :=
  (setup_redirects (inputToCommand line)).1

/-- The loop state after arming and launching the external command
`x` under `okEnv`: the shell is blocked in `waitpid` with the arming
flag still set. -/
def cexSt : LoopSt :=
  loopStep okEnv (loopStep okEnv (initSt []) Event.arm) (Event.readLine ['x'])

/-! ## Tokenizer lemmas -/

theorem inputToCommandAux_append :
    ∀ (t cs cur : List Char), ' ' ∉ t →
      inputToCommandAux (t ++ cs) cur = inputToCommandAux cs (t.reverse ++ cur) := by
  intro t
  induction t with
  | nil => intro cs cur _; simp
  | cons c t ih =>
    intro cs cur hs
    have hc : ¬ c = ' ' := fun h => hs (by simp [h])
    have ht : ' ' ∉ t := fun h => hs (List.mem_cons_of_mem _ h)
    have step : inputToCommandAux ((c :: t) ++ cs) cur
        = inputToCommandAux (t ++ cs) (c :: cur) := by
      simp [inputToCommandAux, hc]
    rw [step, ih cs (c :: cur) ht]
    simp [List.append_assoc]

theorem inputToCommand_single (t : List Char) (h0 : t ≠ []) (hs : ' ' ∉ t) :
    inputToCommand t = [t] := by
  have := inputToCommandAux_append t [] [] hs
  simp only [List.append_nil] at this
  simp only [inputToCommand, this, inputToCommandAux]
  have : ¬ t.reverse = [] := by simpa using h0
  simp [this]

theorem inputToCommandAux_space (cs cur : List Char) (h : cur ≠ []) :
    inputToCommandAux (' ' :: cs) cur = cur.reverse :: inputToCommandAux cs [] := by
  simp [inputToCommandAux, h]

theorem inputToCommand_join :
    ∀ (ts : List Tok), (∀ t ∈ ts, t ≠ [] ∧ ' ' ∉ t) →
      inputToCommand (joinTokens ts) = ts := by
  intro ts
  induction ts with
  | nil => intro _; rfl
  | cons t ts ih =>
    intro h
    obtain ⟨ht0, hts⟩ := h t (List.mem_cons_self t ts)
    match ts, ih with
    | [], _ => exact inputToCommand_single t ht0 hts
    | t2 :: ts2, ih =>
      have hjoin : joinTokens (t :: t2 :: ts2) = t ++ ' ' :: joinTokens (t2 :: ts2) := rfl
      have hrev : t.reverse ≠ [] := by simpa using ht0
      calc inputToCommand (joinTokens (t :: t2 :: ts2))
          = inputToCommandAux (t ++ ' ' :: joinTokens (t2 :: ts2)) [] := by
            rw [hjoin]; rfl
        _ = inputToCommandAux (' ' :: joinTokens (t2 :: ts2)) t.reverse := by
            rw [inputToCommandAux_append _ _ _ hts]; simp
        _ = t.reverse.reverse :: inputToCommandAux (joinTokens (t2 :: ts2)) [] := by
            rw [inputToCommandAux_space _ _ hrev]
        _ = t :: inputToCommand (joinTokens (t2 :: ts2)) := by
            simp [inputToCommand]
        _ = t :: t2 :: ts2 := by
            rw [ih (fun a ha => h a (List.mem_cons_of_mem _ ha))]

theorem inputToCommandAux_wellformed :
    ∀ (cs cur : List Char), ' ' ∉ cur →
      ∀ t ∈ inputToCommandAux cs cur, t ≠ [] ∧ ' ' ∉ t := by
  intro cs
  induction cs with
  | nil =>
    intro cur hcur t ht
    simp only [inputToCommandAux] at ht
    by_cases h : cur = []
    · simp [h] at ht
    · simp only [if_neg h, List.mem_singleton] at ht
      subst ht
      exact ⟨by simpa using h, by simpa using hcur⟩
  | cons c cs ih =>
    intro cur hcur t ht
    simp only [inputToCommandAux] at ht
    by_cases hc : c = ' '
    · rw [if_pos hc] at ht
      by_cases h : cur = []
      · rw [if_pos h] at ht
        exact ih [] (by simp) t ht
      · rw [if_neg h] at ht
        rcases List.mem_cons.mp ht with h1 | h1
        · subst h1
          exact ⟨by simpa using h, by simpa using hcur⟩
        · exact ih [] (by simp) t h1
    · rw [if_neg hc] at ht
      exact ih (c :: cur) (by simp [hcur, Ne.symm hc, hc]) t ht

theorem inputToCommand_blank : ∀ (n : Nat), inputToCommand (List.replicate n ' ') = [] := by
  intro n
  induction n with
  | zero => rfl
  | succ n ih =>
    simp only [List.replicate_succ, inputToCommand, inputToCommandAux, if_pos rfl]
    exact ih

/-! ## Redirection-extraction lemmas -/

theorem setupRedirectsAux_keep (t : Tok) (rest : List Tok) (r : RedirectInfo)
    (h1 : ¬ t = ltTok) (h2 : ¬ t = gtTok) (h3 : ¬ t = ggTok) (h4 : ¬ t = e2Tok) :
    setupRedirectsAux (t :: rest) r
      = (t :: (setupRedirectsAux rest r).1, (setupRedirectsAux rest r).2) := by
  conv_lhs => rw [setupRedirectsAux.eq_def]
  simp [h1, h2, h3, h4]

theorem redirEvents_keep (t : Tok) (rest : List Tok)
    (h1 : ¬ t = ltTok) (h2 : ¬ t = gtTok) (h3 : ¬ t = ggTok) (h4 : ¬ t = e2Tok) :
    redirEvents (t :: rest) = redirEvents rest := by
  conv_lhs => rw [redirEvents.eq_def]
  simp [h1, h2, h3, h4]

theorem setupRedirectsAux_fst_indep :
    ∀ (cmd : List Tok) (r r2 : RedirectInfo),
      (setupRedirectsAux cmd r).1 = (setupRedirectsAux cmd r2).1 := by
  intro cmd r
  induction cmd, r using setupRedirectsAux.induct with
  | case1 r => intro r2; rfl
  | case2 r => intro r2; simp [setupRedirectsAux]
  | case3 r f rest2 ih => intro r2; simp only [setupRedirectsAux, if_pos rfl]; exact ih _
  | case4 r h1 => intro r2; simp [setupRedirectsAux, h1]
  | case5 r f rest2 h1 ih =>
    intro r2; simp only [setupRedirectsAux, if_neg h1, if_pos rfl]; exact ih _
  | case6 r h1 h2 => intro r2; simp [setupRedirectsAux, h1, h2]
  | case7 r f rest2 h1 h2 ih =>
    intro r2; simp only [setupRedirectsAux, if_neg h1, if_neg h2, if_pos rfl]; exact ih _
  | case8 r h1 h2 h3 => intro r2; simp [setupRedirectsAux, h1, h2, h3]
  | case9 r f rest2 h1 h2 h3 ih =>
    intro r2
    simp only [setupRedirectsAux, if_neg h1, if_neg h2, if_neg h3, if_pos rfl]
    exact ih _
  | case10 t rest r h1 h2 h3 h4 ih =>
    intro r2
    rw [setupRedirectsAux_keep t rest r h1 h2 h3 h4,
      setupRedirectsAux_keep t rest r2 h1 h2 h3 h4]
    exact congrArg (t :: ·) (ih _)

theorem setupRedirectsAux_snd :
    ∀ (cmd : List Tok) (r : RedirectInfo),
      (setupRedirectsAux cmd r).2 = (redirEvents cmd).foldl applyEvent r := by
  intro cmd r
  induction cmd, r using setupRedirectsAux.induct with
  | case1 r => rfl
  | case2 r => simp [setupRedirectsAux, redirEvents]
  | case3 r f rest2 ih =>
    simp only [setupRedirectsAux, redirEvents, if_pos rfl, List.foldl_cons]
    exact ih
  | case4 r h1 => simp [setupRedirectsAux, redirEvents, h1]
  | case5 r f rest2 h1 ih =>
    simp only [setupRedirectsAux, redirEvents, if_neg h1, if_pos rfl, List.foldl_cons]
    exact ih
  | case6 r h1 h2 => simp [setupRedirectsAux, redirEvents, h1, h2]
  | case7 r f rest2 h1 h2 ih =>
    simp only [setupRedirectsAux, redirEvents, if_neg h1, if_neg h2, if_pos rfl,
      List.foldl_cons]
    exact ih
  | case8 r h1 h2 h3 => simp [setupRedirectsAux, redirEvents, h1, h2, h3]
  | case9 r f rest2 h1 h2 h3 ih =>
    simp only [setupRedirectsAux, redirEvents, if_neg h1, if_neg h2, if_neg h3,
      if_pos rfl, List.foldl_cons]
    exact ih
  | case10 t rest r h1 h2 h3 h4 ih =>
    rw [setupRedirectsAux_keep t rest r h1 h2 h3 h4,
      redirEvents_keep t rest h1 h2 h3 h4]
    exact ih

theorem setupRedirectsAux_sublist :
    ∀ (cmd : List Tok) (r : RedirectInfo), (setupRedirectsAux cmd r).1.Sublist cmd := by
  intro cmd r
  induction cmd, r using setupRedirectsAux.induct with
  | case1 r => exact List.Sublist.refl _
  | case2 r => exact List.nil_sublist _
  | case3 r f rest2 ih =>
    simp only [setupRedirectsAux, if_pos rfl]
    exact (ih.cons _).cons _
  | case4 r h1 => simp only [setupRedirectsAux, if_neg h1, if_pos rfl]; exact List.nil_sublist _
  | case5 r f rest2 h1 ih =>
    simp only [setupRedirectsAux, if_neg h1, if_pos rfl]
    exact (ih.cons _).cons _
  | case6 r h1 h2 =>
    simp only [setupRedirectsAux, if_neg h1, if_neg h2, if_pos rfl]
    exact List.nil_sublist _
  | case7 r f rest2 h1 h2 ih =>
    simp only [setupRedirectsAux, if_neg h1, if_neg h2, if_pos rfl]
    exact (ih.cons _).cons _
  | case8 r h1 h2 h3 =>
    simp only [setupRedirectsAux, if_neg h1, if_neg h2, if_neg h3, if_pos rfl]
    exact List.nil_sublist _
  | case9 r f rest2 h1 h2 h3 ih =>
    simp only [setupRedirectsAux, if_neg h1, if_neg h2, if_neg h3, if_pos rfl]
    exact (ih.cons _).cons _
  | case10 t rest r h1 h2 h3 h4 ih =>
    rw [setupRedirectsAux_keep t rest r h1 h2 h3 h4]
    exact ih.cons₂ _

theorem setupRedirectsAux_no_ops :
    ∀ (cmd : List Tok) (r : RedirectInfo) (t : Tok),
      t ∈ (setupRedirectsAux cmd r).1 → isOpTok t = false := by
  intro cmd r
  induction cmd, r using setupRedirectsAux.induct with
  | case1 r => intro t ht; simp [setupRedirectsAux] at ht
  | case2 r => intro t ht; simp [setupRedirectsAux] at ht
  | case3 r f rest2 ih =>
    intro t ht
    simp only [setupRedirectsAux, if_pos rfl] at ht
    exact ih t ht
  | case4 r h1 => intro t ht; simp [setupRedirectsAux, h1] at ht
  | case5 r f rest2 h1 ih =>
    intro t ht
    simp only [setupRedirectsAux, if_neg h1, if_pos rfl] at ht
    exact ih t ht
  | case6 r h1 h2 => intro t ht; simp [setupRedirectsAux, h1, h2] at ht
  | case7 r f rest2 h1 h2 ih =>
    intro t ht
    simp only [setupRedirectsAux, if_neg h1, if_neg h2, if_pos rfl] at ht
    exact ih t ht
  | case8 r h1 h2 h3 => intro t ht; simp [setupRedirectsAux, h1, h2, h3] at ht
  | case9 r f rest2 h1 h2 h3 ih =>
    intro t ht
    simp only [setupRedirectsAux, if_neg h1, if_neg h2, if_neg h3, if_pos rfl] at ht
    exact ih t ht
  | case10 t0 rest r h1 h2 h3 h4 ih =>
    intro t ht
    rw [setupRedirectsAux_keep t0 rest r h1 h2 h3 h4] at ht
    simp only [List.mem_cons] at ht
    rcases ht with h | h
    · subst h; simp [isOpTok, h1, h2, h3, h4]
    · exact ih t h

theorem setupRedirectsAux_bare_op (op : Tok) (r : RedirectInfo)
    (h : isOpTok op = true) : setupRedirectsAux [op] r = ([], r) := by
  have h4 : ((op = ltTok ∨ op = gtTok) ∨ op = ggTok) ∨ op = e2Tok := by
    simpa [isOpTok] using h
  rcases h4 with ((h | h) | h) | h <;> subst h <;> rfl

theorem setupRedirectsAux_no_op_tokens :
    ∀ (cmd : List Tok) (r : RedirectInfo), (∀ t ∈ cmd, isOpTok t = false) →
      setupRedirectsAux cmd r = (cmd, r) := by
  intro cmd
  induction cmd with
  | nil => intro r _; rfl
  | cons t rest ih =>
    intro r h
    have ht := h t (List.mem_cons_self t rest)
    have h1 : ¬ t = ltTok := by intro e; rw [e] at ht; simp [isOpTok] at ht
    have h2 : ¬ t = gtTok := by intro e; rw [e] at ht; simp [isOpTok] at ht
    have h3 : ¬ t = ggTok := by intro e; rw [e] at ht; simp [isOpTok] at ht
    have h4 : ¬ t = e2Tok := by intro e; rw [e] at ht; simp [isOpTok] at ht
    rw [setupRedirectsAux_keep t rest r h1 h2 h3 h4,
      ih r (fun a ha => h a (List.mem_cons_of_mem _ ha))]

theorem setupRedirectsAux_all_redirs :
    ∀ (cmd : List Tok), AllRedirs cmd →
      ∀ (r : RedirectInfo), (setupRedirectsAux cmd r).1 = [] := by
  intro cmd h
  induction h with
  | nil => intro r; rfl
  | bare op hop => intro r; rw [setupRedirectsAux_bare_op op r hop]
  | pair op f rest hop _ ih =>
    intro r
    have h4 : ((op = ltTok ∨ op = gtTok) ∨ op = ggTok) ∨ op = e2Tok := by
      simpa [isOpTok] using hop
    rcases h4 with ((h | h) | h) | h <;> subst h <;> exact ih _

theorem dispatchLine_flag (env : ShellEnv) (s : LoopSt) (l : List Char) :
    (dispatchLine env s l).jump_flag = s.jump_flag := by
  rcases hout : shellIter env s.cwd l with ⟨cwd2, act, msgs, sp⟩
  unfold dispatchLine
  rw [hout]
  cases act <;> cases sp <;> rfl

theorem reach_top_or_armed (env : ShellEnv) (cwd0 : Tok) :
    ∀ (s : LoopSt), Reach env cwd0 s → s.pc = PC.TopLoop ∨ s.jump_flag = true := by
  intro s h
  induction h with
  | init => exact Or.inl rfl
  | @step s e _ ih =>
    obtain ⟨pc, fl, ca, cw⟩ := s
    cases pc <;> cases e <;> (try exact ih) <;> simp only at ih
    case TopLoop.arm => exact Or.inr rfl
    case AtReadline.readLine l =>
      have hfl : fl = true := ih.resolve_left (by decide)
      exact Or.inr ((dispatchLine_flag env _ l).trans hfl)
    case AtReadline.readEof =>
      exact Or.inr (ih.resolve_left (by decide))
    case AtWait.childDone => exact Or.inl rfl
  | @intr s _ ih =>
    by_cases hf : s.jump_flag
    · exact Or.inr (by simp [sigint_handler, hf])
    · have : sigint_handler s = s := by simp [sigint_handler, hf]
      rw [this]; exact ih

theorem foldl_applyEvent_proj :
    ∀ (evs : List (RField × Tok)) (r : RedirectInfo),
      (evs.foldl applyEvent r).input_file = lastRecordedFrom isInpF r.input_file evs ∧
      (evs.foldl applyEvent r).output_file = lastRecordedFrom isOutF r.output_file evs ∧
      (evs.foldl applyEvent r).error_file = lastRecordedFrom isErrF r.error_file evs ∧
      (evs.foldl applyEvent r).output_mode = lastModeFrom r.output_mode evs := by
  intro evs
  induction evs with
  | nil => intro r; exact ⟨rfl, rfl, rfl, rfl⟩
  | cons e evs ih =>
    intro r
    obtain ⟨fld, tk⟩ := e
    have hstep := ih (applyEvent r (fld, tk))
    cases fld <;>
      simpa [applyEvent, lastRecordedFrom, lastModeFrom, isInpF, isOutF, isErrF]
        using hstep

/-! ## Claim theorems -/

/-- Claim C2: on the token vector `["cat", "<", "in.txt", ">", "out.txt",
"extra"]`, redirection extraction produces the cleaned vector
`["cat", "extra"]`, records input path `"in.txt"`, output path
`"out.txt"`, and output mode Truncate. -/
theorem redirect_round_trip_example :
    setup_redirects
        ["cat".data, "<".data, "in.txt".data, ">".data, "out.txt".data, "extra".data]
      = (["cat".data, "extra".data],
         { input_file := some ("in.txt".data), output_file := some ("out.txt".data),
           error_file := none, output_mode := OutputMode.Truncate }) := by
  decide

/-- Claim C3: for every argument vector, the cleaned vector produced by
redirection extraction contains no occurrence of the operator tokens
`<`, `>`, `>>`, `2>`, and the retained tokens appear in the same
relative order as in the original vector (the cleaned vector is a
sublist of the original). -/
theorem cleaned_no_ops_ordered (cmd : List Tok) :
    (setup_redirects cmd).1.Sublist cmd ∧
    ∀ (op : Tok), isOpTok op = true → op ∉ (setup_redirects cmd).1 := by
  refine ⟨setupRedirectsAux_sublist cmd initRedir, ?_⟩
  intro op hop hmem
  have hfalse := setupRedirectsAux_no_ops cmd initRedir op hmem
  rw [hfalse] at hop
  exact Bool.false_ne_true hop

/-- Witness for C3 at the vector `["cat", "<", "f"]`. -/
theorem cleaned_no_ops_ordered_witness :
    (setup_redirects ["cat".data, "<".data, "f".data]).1.Sublist
        ["cat".data, "<".data, "f".data] ∧
    "<".data ∉ (setup_redirects ["cat".data, "<".data, "f".data]).1 :=
  ⟨(cleaned_no_ops_ordered _).1, (cleaned_no_ops_ordered _).2 _ (by decide)⟩

/-- Claim C4: during the left-to-right scan each operator occurrence
with a following token consumes that token and records it in the
corresponding directive field, the last recorded occurrence winning
(each populated field equals the last recording event for it, and the
mode equals the mode of the last output event); an operator with no
following token is dropped from the vector without recording anything
and without error. -/
theorem redirect_directive_last_wins (cmd : List Tok) :
    (setup_redirects cmd).2.input_file = lastRecorded isInpF (redirEvents cmd) ∧
    (setup_redirects cmd).2.output_file = lastRecorded isOutF (redirEvents cmd) ∧
    (setup_redirects cmd).2.error_file = lastRecorded isErrF (redirEvents cmd) ∧
    (setup_redirects cmd).2.output_mode = lastMode (redirEvents cmd) ∧
    ∀ (op : Tok) (r : RedirectInfo), isOpTok op = true →
      setupRedirectsAux [op] r = ([], r) := by
  have h := foldl_applyEvent_proj (redirEvents cmd) initRedir
  rw [setup_redirects, setupRedirectsAux_snd]
  exact ⟨h.1, h.2.1, h.2.2.1, h.2.2.2,
    fun op r hop => setupRedirectsAux_bare_op op r hop⟩

/-- Witness for C4 at `["<", "a", "<", "b", ">>", "o"]` and at the
bare trailing operator `"<"`. -/
theorem redirect_directive_last_wins_witness :
    (setup_redirects
        ["<".data, "a".data, "<".data, "b".data, ">>".data, "o".data]).2.input_file
      = lastRecorded isInpF
          (redirEvents ["<".data, "a".data, "<".data, "b".data, ">>".data, "o".data]) ∧
    setupRedirectsAux ["<".data] initRedir = ([], initRedir) :=
  ⟨(redirect_directive_last_wins
      ["<".data, "a".data, "<".data, "b".data, ">>".data, "o".data]).1,
   (redirect_directive_last_wins
      ["<".data, "a".data, "<".data, "b".data, ">>".data, "o".data]).2.2.2.2
     ("<".data) initRedir (by decide)⟩

/-- Claim C5: tokenization splits on runs of the literal space
character only: a line formed of three space-free nonempty words
joined by single spaces yields exactly those three tokens in order,
and a line consisting only of spaces yields the empty vector.  (The
embedded tokenizer is a pure function; the C code reads only a private
`strdup` copy, main.c 306, leaving the input line unmutated.) -/
theorem tokenize_three_and_blank (t1 t2 t3 : Tok) (n : Nat)
    (h1 : t1 ≠ []) (h2 : ' ' ∉ t1) (h3 : t2 ≠ []) (h4 : ' ' ∉ t2)
    (h5 : t3 ≠ []) (h6 : ' ' ∉ t3) :
    inputToCommand (joinTokens [t1, t2, t3]) = [t1, t2, t3] ∧
    inputToCommand (List.replicate n ' ') = [] := by
  constructor
  · apply inputToCommand_join
    intro t ht
    simp only [List.mem_cons, List.not_mem_nil, or_false] at ht
    rcases ht with h | h | h
    · subst h; exact ⟨h1, h2⟩
    · subst h; exact ⟨h3, h4⟩
    · subst h; exact ⟨h5, h6⟩
  · exact inputToCommand_blank n

/-- Witness for C5 on the line `ls -a .` and a three-space line. -/
theorem tokenize_three_and_blank_witness :
    inputToCommand (joinTokens [['l', 's'], ['-', 'a'], ['.']])
      = [['l', 's'], ['-', 'a'], ['.']] ∧
    inputToCommand (List.replicate 3 ' ') = [] :=
  tokenize_three_and_blank _ _ _ 3 (by decide) (by decide) (by decide) (by decide)
    (by decide) (by decide)

/-- Claim C6: in the child execution context, a failure to open or
duplicate any redirection target and a failure to replace the program
image each terminate the child with the distinguished status 1
carrying a user-visible error message (every `exited` outcome of the
child path has code 1 and a nonempty message list), and the shell's
own exit code is 0 on every run regardless of child outcomes. -/
theorem child_failure_exit_status_one (cenv : ChildEnv) (r : RedirectInfo)
    (argv : List Tok) (arg0 : Tok) (code : Nat) (msgs : List Msg) :
    (childRun cenv r argv arg0 = ChildResult.exited code msgs →
      code = 1 ∧ msgs ≠ []) ∧
    ∀ (env : ShellEnv) (cwd : Tok) (lines : List (List Char)),
      shellRun env cwd lines = 0 := by
  constructor
  · intro h
    unfold childRun at h
    cases happ : apply_redirects cenv r with
    | error m =>
      rw [happ] at h
      cases h
      exact ⟨rfl, by simp⟩
    | ok u =>
      rw [happ] at h
      cases hex : cenv.execvp arg0 argv with
      | none => rw [hex] at h; exact ChildResult.noConfusion h
      | some e =>
        rw [hex] at h
        cases h
        exact ⟨rfl, by simp⟩
  · intro env cwd lines
    induction lines generalizing cwd with
    | nil => rfl
    | cons l ls ih =>
      have hrw : shellRun env cwd (l :: ls) =
          match (shellIter env cwd l).action with
          | IterAction.breakLoop => 0
          | IterAction.continueLoop => shellRun env (shellIter env cwd l).cwd ls := rfl
      rw [hrw]
      cases (shellIter env cwd l).action with
      | breakLoop => rfl
      | continueLoop => exact ih _

/-- Witness for C6: a child whose input `open` fails exits with
status 1 and a message naming the path. -/
theorem child_failure_exit_status_one_witness :
    1 = 1 ∧ ([Msg.openInputFail ("in.txt".data) enoent] : List Msg) ≠ [] :=
  (child_failure_exit_status_one failOpenChildEnv
      { initRedir with input_file := some ("in.txt".data) }
      ["cat".data] ("cat".data) 1 [Msg.openInputFail ("in.txt".data) enoent]).1
    (by decide)

/-- Claim C7: the `cd` builtin with no operand emits the usage error
and the loop continues; `cd` with a path `chdir` rejects leaves the
working directory unchanged and emits an error naming the path and
the OS failure reason, and the loop continues; `cd` with an enterable
directory changes the working directory and prints nothing.  In all
three cases no child is created. -/
theorem cd_dispatch_behaviour (env : ShellEnv) (cwd : Tok) (line : List Char)
    (args : List Tok)
    (htok : inputToCommand line = ['c', 'd'] :: args)
    (hargs : ∀ a ∈ args, isOpTok a = false) :
    shellIter env cwd line =
      match args with
      | [] =>
        { cwd := cwd, action := IterAction.continueLoop,
          msgs := [Msg.cdMissingOperand], spawned := none }
      | path :: _ =>
        match env.chdir cwd path with
        | Except.error e =>
          { cwd := cwd, action := IterAction.continueLoop,
            msgs := [Msg.cdFail path e], spawned := none }
        | Except.ok cwd2 =>
          { cwd := cwd2, action := IterAction.continueLoop,
            msgs := [], spawned := none } := by
  have hl : ¬ line = [] := by
    intro h
    subst h
    rw [show inputToCommand [] = [] from rfl] at htok
    exact List.noConfusion htok
  have hall : ∀ t ∈ (['c', 'd'] :: args), isOpTok t = false := by
    intro t ht
    rcases List.mem_cons.mp ht with h | h
    · subst h; decide
    · exact hargs t h
  have hsetup : setup_redirects (inputToCommand line) = (['c', 'd'] :: args, initRedir) := by
    rw [htok]
    exact setupRedirectsAux_no_op_tokens _ initRedir hall
  simp only [shellIter, if_neg hl]
  rw [hsetup]
  cases args with
  | nil => rfl
  | cons path rest =>
    show (match cd env cwd path with
      | Except.error e =>
        { cwd := cwd, action := IterAction.continueLoop,
          msgs := [Msg.cdFail path e], spawned := none }
      | Except.ok cwd2 =>
        { cwd := cwd2, action := IterAction.continueLoop,
          msgs := [], spawned := none } : IterOut) = _
    cases env.chdir cwd path with
    | error e => rfl
    | ok d => rfl

/-- Witness for C7: `cd tmp` under an environment whose `chdir`
succeeds moves the working directory to `tmp` with no output. -/
theorem cd_dispatch_behaviour_witness :
    shellIter okEnv [] ("cd tmp".data) =
      { cwd := "tmp".data, action := IterAction.continueLoop,
        msgs := [], spawned := none } := by
  have h := cd_dispatch_behaviour okEnv [] ("cd tmp".data) ["tmp".data]
    (by decide) (by decide)
  exact h

/-- Claim C8 (code bug): the no-leak invariant fails.  On the line
`cat < in.txt` the tokenizer allocates three owned token strings
(main.c 330), but after extraction compacts the vector, `freeCommand`
(main.c 354–361) walks only the surviving cleaned vector and frees
exactly one of them; the `<` operator string and the `in.txt` operand
string — the latter still referenced by the directive's input field,
which is never freed — are leaked. -/
theorem redirect_token_storage_leak :
    (tokensAllocated ("cat < in.txt".data)).length = 3 ∧
    (tokensFreed ("cat < in.txt".data)).length = 1 ∧
    (setup_redirects (inputToCommand ("cat < in.txt".data))).2.input_file
      = some ("in.txt".data) := by
  decide

/-- Claim C9: an input line whose tokens consist entirely of
redirection operators and their operands produces no action: the
cleaned vector is empty, so the iteration runs no builtin, creates no
child (hence opens no redirection target), prints nothing, leaves the
working directory unchanged, and continues to the next prompt. -/
theorem redirs_only_line_no_action (env : ShellEnv) (cwd : Tok) (line : List Char)
    (h : AllRedirs (inputToCommand line)) :
    shellIter env cwd line =
      { cwd := cwd, action := IterAction.continueLoop, msgs := [], spawned := none } := by
  by_cases hl : line = []
  · subst hl; rfl
  · have hclean : (setup_redirects (inputToCommand line)).1 = [] :=
      setupRedirectsAux_all_redirs _ h initRedir
    simp only [shellIter, if_neg hl]
    rw [hclean]

/-- Witness for C9 on the line `> out.txt`. -/
theorem redirs_only_line_no_action_witness :
    shellIter okEnv [] ("> out.txt".data) =
      { cwd := [], action := IterAction.continueLoop, msgs := [], spawned := none } := by
  apply redirs_only_line_no_action
  have h : inputToCommand ("> out.txt".data) = [gtTok, "out.txt".data] := by decide
  rw [h]
  exact AllRedirs.pair _ _ _ (by decide) AllRedirs.nil

/-- Claim C1 counterexample: after arming and launching an external
command, the shell is blocked in `waitpid` (pc `AtWait`) in a
reachable state whose `jump_flag` is still set; an arriving SIGINT
runs the handler, which `siglongjmp`s back to the prompt — control is
transferred out of the wait, contradicting the claim that the
wait-for-child call cannot be diverted. -/
theorem sigint_during_wait_counterexample :
    Reach okEnv [] cexSt ∧ cexSt.pc = PC.AtWait ∧
    (sigint_handler cexSt).pc = PC.AtReadline ∧ sigint_handler cexSt ≠ cexSt :=
  ⟨Reach.step (Event.readLine ['x']) (Reach.step Event.arm Reach.init),
   by decide, by decide, by decide⟩

/-- Claim C1 (amended): the interrupt handler can divert control
whenever `jump_flag` is armed — and the flag, set at the top of each
iteration and never cleared, is still armed once the wait-for-child
call has begun, so a SIGINT arriving during the wait transfers
control back to the prompt; when unarmed (only before the first
iteration's arming) the handler is a no-op; and the handler itself
never touches the child (`childAlive` is preserved). -/
theorem sigint_armed_behaviour (env : ShellEnv) (cwd0 : Tok) (s : LoopSt)
    (hs : Reach env cwd0 s) :
    (sigint_handler s).childAlive = s.childAlive ∧
    (s.jump_flag = false → sigint_handler s = s) ∧
    (s.jump_flag = true → (sigint_handler s).pc = PC.AtReadline) ∧
    (s.pc = PC.AtWait →
      s.jump_flag = true ∧ (sigint_handler s).pc = PC.AtReadline) := by
  refine ⟨?_, ?_, ?_, ?_⟩
  · by_cases hf : s.jump_flag <;> simp [sigint_handler, hf]
  · intro hf; simp [sigint_handler, hf]
  · intro hf; simp [sigint_handler, hf]
  · intro hpc
    have harm := (reach_top_or_armed env cwd0 s hs).resolve_left
      (by rw [hpc]; decide)
    exact ⟨harm, by simp [sigint_handler, harm]⟩

/-- Witness for the amended C1 at the reachable waiting state. -/
theorem sigint_armed_behaviour_witness :
    cexSt.jump_flag = true ∧ (sigint_handler cexSt).pc = PC.AtReadline ∧
    (sigint_handler cexSt).childAlive = cexSt.childAlive :=
  ⟨((sigint_armed_behaviour okEnv [] cexSt
        (Reach.step (Event.readLine ['x']) (Reach.step Event.arm Reach.init))).2.2.2
      (by decide)).1,
   ((sigint_armed_behaviour okEnv [] cexSt
        (Reach.step (Event.readLine ['x']) (Reach.step Event.arm Reach.init))).2.2.2
      (by decide)).2,
   (sigint_armed_behaviour okEnv [] cexSt
      (Reach.step (Event.readLine ['x']) (Reach.step Event.arm Reach.init))).1⟩

/-- Claim C10: every token produced by tokenization is nonempty and
space-free, and joining a tokenizer output with single spaces and
re-tokenizing yields the same token vector. -/
theorem tokens_wellformed_round_trip (line : List Char) :
    (∀ t ∈ inputToCommand line, t ≠ [] ∧ ' ' ∉ t) ∧
    inputToCommand (joinTokens (inputToCommand line)) = inputToCommand line := by
  have hw := inputToCommandAux_wellformed line [] (by simp)
  exact ⟨hw, inputToCommand_join _ hw⟩

/-- Witness for C10 on a line with a doubled separator. -/
theorem tokens_wellformed_round_trip_witness :
    inputToCommand (joinTokens (inputToCommand ("ab  cd".data)))
      = inputToCommand ("ab  cd".data) :=
  (tokens_wellformed_round_trip ("ab  cd".data)).2

end BShell
